import Mathlib

/-!
Verification of the `miku/cali` appointment-scheduling prototype.

The Go source is shallowly embedded: `time.Time` becomes a wrapper around
`Int` (nanoseconds since an epoch, where `0` is Go's zero value, so
`IsZero` is a comparison with `0` and `Before` is `<`); the sqlite store
becomes an explicit `Store` state (a list of rows plus the autoincrement
counter); fallible database calls return `Except DbError`.
-/

/-- Model of Go `time.Time`: an instant as a signed offset, with `0`
standing for the zero value (`time.Time{}`). -/
structure Time where
  ns : Int
deriving Repr, DecidableEq

/-- Go `time.Time.IsZero`. -/
def Time.IsZero (t : Time) : Bool := t.ns == 0

/-- Go `time.Time.Before`: strict `<` on instants. -/
def Time.Before (a b : Time) : Bool := a.ns < b.ns

/-- `internal/models`: the `Appointment` struct. -/
structure Appointment where
  ID : Int
  UserID : Int
  Title : String
  Description : String
  StartTime : Time
  EndTime : Time
  CreatedAt : Time
  UpdatedAt : Time
deriving Repr, DecidableEq

/-- The three validation errors declared in `internal/models`
(`ErrEmptyTitle`, `ErrInvalidTime`, `ErrEndTimeBeforeStart`). -/
inductive ValidationError where
  | emptyTitle
  | invalidTime
  | endTimeBeforeStart
deriving Repr, DecidableEq

/-- `Appointment.Validate` from `internal/models`: returns the first
failing check, in source order. -/
def Appointment.Validate (a : Appointment) : Except ValidationError Unit :=
  if a.Title = "" then .error .emptyTitle
  else if a.StartTime.IsZero || a.EndTime.IsZero then .error .invalidTime
  else if a.EndTime.Before a.StartTime then .error .endTimeBeforeStart
  else .ok ()

/-- A concrete appointment with non-empty title, both timestamps set,
and end equal to start. -/
def apptEqualTimes : Appointment :=
  { ID := 0, UserID := 1, Title := "meeting", Description := "",
    StartTime := ⟨50⟩, EndTime := ⟨50⟩, CreatedAt := ⟨0⟩, UpdatedAt := ⟨0⟩ }

/-- C1 counterexample: `apptEqualTimes` has a non-empty title, both
timestamps set, and end time equal to start time, yet `Validate`
succeeds — the claim that such an appointment must fail validation is
false on the code (`EndTime.Before StartTime` is a strict comparison). -/
theorem validate_accepts_equal_times :
    apptEqualTimes.Title ≠ "" ∧
    apptEqualTimes.StartTime.IsZero = false ∧
    apptEqualTimes.EndTime.IsZero = false ∧
    apptEqualTimes.EndTime = apptEqualTimes.StartTime ∧
    apptEqualTimes.Validate = Except.ok () := by
  refine ⟨?_, rfl, rfl, rfl, rfl⟩
  decide

/-- C1 (amended): `Validate` fails iff the title is empty, or either
timestamp is unset, or the end time is strictly before the start time;
an appointment whose end equals its start passes validation. -/
theorem validate_fails_iff (a : Appointment) :
    (∃ e, a.Validate = Except.error e) ↔
      (a.Title = "" ∨ a.StartTime.IsZero = true ∨ a.EndTime.IsZero = true ∨
        a.EndTime.Before a.StartTime = true) := by
  unfold Appointment.Validate
  split
  · simp_all
  · split
    · rename_i h1 h2
      simp only [Bool.or_eq_true] at h2
      constructor
      · intro _
        rcases h2 with h | h
        · exact Or.inr (Or.inl h)
        · exact Or.inr (Or.inr (Or.inl h))
      · intro _; exact ⟨.invalidTime, rfl⟩
    · split
      · rename_i h1 h2 h3
        simp only [Bool.or_eq_true] at h2
        push_neg at h2
        simp_all
      · rename_i h1 h2 h3
        simp only [Bool.or_eq_true] at h2
        push_neg at h2
        simp_all [Bool.not_eq_true]

/-- C9: `Validate` checks its conditions in a fixed precedence order —
an empty title yields `emptyTitle` regardless of the timestamps; with a
non-empty title an unset timestamp yields `invalidTime` regardless of
the ordering of the times; `endTimeBeforeStart` can only be returned
when the title is non-empty and both timestamps are set. -/
theorem validate_precedence (a : Appointment) :
    (a.Title = "" → a.Validate = Except.error ValidationError.emptyTitle) ∧
    (a.Title ≠ "" → (a.StartTime.IsZero = true ∨ a.EndTime.IsZero = true) →
      a.Validate = Except.error ValidationError.invalidTime) ∧
    (a.Validate = Except.error ValidationError.endTimeBeforeStart →
      a.Title ≠ "" ∧ a.StartTime.IsZero = false ∧ a.EndTime.IsZero = false) := by
  refine ⟨fun h => ?_, fun h1 h2 => ?_, fun h => ?_⟩
  · simp [Appointment.Validate, h]
  · rcases h2 with h | h <;> simp [Appointment.Validate, h1, h]
  · unfold Appointment.Validate at h
    split at h
    · exact absurd h (by simp)
    · split at h
      · exact absurd h (by simp)
      · rename_i h1 h2
        simp only [Bool.or_eq_true] at h2
        push_neg at h2
        exact ⟨h1, by simp [Bool.not_eq_true] at h2; exact h2.1,
          by simp [Bool.not_eq_true] at h2; exact h2.2⟩

/-- A concrete appointment with an empty title and mis-ordered, partly
unset timestamps, and one with a non-empty title, an unset end, and the
end before the start. -/
def apptEmptyTitle : Appointment :=
  { ID := 0, UserID := 1, Title := "", Description := "",
    StartTime := ⟨0⟩, EndTime := ⟨0⟩, CreatedAt := ⟨0⟩, UpdatedAt := ⟨0⟩ }

def apptUnsetEnd : Appointment :=
  { ID := 0, UserID := 1, Title := "t", Description := "",
    StartTime := ⟨9⟩, EndTime := ⟨0⟩, CreatedAt := ⟨0⟩, UpdatedAt := ⟨0⟩ }

/-- Witness for C9 at concrete inputs: the empty-title appointment (with
unset times) reports `emptyTitle`, and the non-empty-title appointment
with an unset end time (which is also before its start) reports
`invalidTime`. -/
theorem validate_precedence_witness :
    apptEmptyTitle.Validate = Except.error ValidationError.emptyTitle ∧
    apptUnsetEnd.Validate = Except.error ValidationError.invalidTime :=
  ⟨(validate_precedence apptEmptyTitle).1 rfl,
    (validate_precedence apptUnsetEnd).2.1 (by decide) (Or.inr rfl)⟩

/-- The database errors that the gateway surfaces: the sqlite CHECK
constraint violation, `sql.ErrNoRows` from a single-row scan, and the
"appointment not found or unauthorized" error built in `DeleteAppointment`. -/
inductive DbError where
  | constraintViolation
  | noRows
  | notFoundOrUnauthorized
deriving Repr, DecidableEq

/-- The sqlite store: the `appointments` table as a list of rows, plus
the `AUTOINCREMENT` counter for the next primary key. -/
structure Store where
  rows : List Appointment
  nextId : Int
deriving Repr, DecidableEq

/-- `Database.CreateAppointment`: `INSERT INTO appointments … RETURNING
id, created_at, updated_at`. The table's `CHECK (end_time > start_time)`
rejects the insert unless the end is strictly after the start; on
success the store assigns the id and sets both managed timestamps to
`CURRENT_TIMESTAMP` (the parameter `now`), and the returned appointment
carries them (the Go code scans them back into the input struct). -/
def Store.CreateAppointment (s : Store) (now : Time) (a : Appointment) :
    Except DbError (Store × Appointment) :=
  if a.StartTime.ns < a.EndTime.ns then
    let row : Appointment := { a with ID := s.nextId, CreatedAt := now, UpdatedAt := now }
    .ok ({ rows := s.rows ++ [row], nextId := s.nextId + 1 }, row)
  else .error .constraintViolation

/-- `Database.GetAppointment`: `SELECT … WHERE id = ?`; `sql.ErrNoRows`
is translated to `(nil, nil)`, so an absent id is `Except.ok none`,
never an error. -/
def Store.GetAppointment (s : Store) (id : Int) : Except DbError (Option Appointment) :=
  .ok (s.rows.find? (fun r => r.ID == id))

/-- The `ORDER BY start_time ASC` ordering. -/
def startLE (x y : Appointment) : Prop := x.StartTime.ns ≤ y.StartTime.ns

instance : DecidableRel startLE := fun x y =>
  inferInstanceAs (Decidable (x.StartTime.ns ≤ y.StartTime.ns))

instance : IsTotal Appointment startLE := ⟨fun x y => Int.le_total x.StartTime.ns y.StartTime.ns⟩

instance : IsTrans Appointment startLE := ⟨fun _ _ _ h1 h2 => le_trans h1 h2⟩

/-- `Database.ListAppointments`: `SELECT … WHERE user_id = ? AND
start_time >= ? AND end_time <= ? ORDER BY start_time ASC`. The row
filter and the ordering are modelled by a filter followed by a stable
sort on start time; an empty result set is an empty list, not an error. -/
def Store.ListAppointments (s : Store) (userID : Int) (lo hi : Time) :
    Except DbError (List Appointment) :=
  .ok (List.insertionSort startLE (s.rows.filter (fun r =>
    r.UserID == userID && decide (lo.ns ≤ r.StartTime.ns) && decide (r.EndTime.ns ≤ hi.ns))))

/-- `Database.UpdateAppointment`: `UPDATE appointments SET …, updated_at
= CURRENT_TIMESTAMP WHERE id = ? AND user_id = ? RETURNING updated_at`.
When no row matches both keys the single-row scan sees zero rows and the
call fails with `sql.ErrNoRows`; when a row matches but the new times
violate `CHECK (end_time > start_time)` the update fails with a
constraint violation and changes nothing; otherwise the matching row's
fields are replaced, `updated_at` is refreshed to `now` and scanned back. -/
def Store.UpdateAppointment (s : Store) (now : Time) (a : Appointment) :
    Except DbError (Store × Time) :=
  if s.rows.any (fun r => r.ID == a.ID && r.UserID == a.UserID) then
    if a.StartTime.ns < a.EndTime.ns then
      .ok ({ s with rows := s.rows.map (fun r =>
        if r.ID == a.ID && r.UserID == a.UserID then
          { r with Title := a.Title, Description := a.Description,
                   StartTime := a.StartTime, EndTime := a.EndTime, UpdatedAt := now }
        else r) }, now)
    else .error .constraintViolation
  else .error .noRows

/-- `Database.DeleteAppointment`: `DELETE FROM appointments WHERE id = ?
AND user_id = ?`, then `RowsAffected`; zero affected rows yield the
"appointment not found or unauthorized" error. -/
def Store.DeleteAppointment (s : Store) (id userID : Int) : Except DbError Store :=
  let remaining := s.rows.filter (fun r => !(r.ID == id && r.UserID == userID))
  if remaining.length == s.rows.length then .error .notFoundOrUnauthorized
  else .ok { s with rows := remaining }

/-- A gateway mutation, for reasoning about sequences of operations. -/
inductive Op where
  | create (now : Time) (a : Appointment)
  | update (now : Time) (a : Appointment)
  | delete (id userID : Int)

/-- Run one mutation against the store; a failed call leaves the store
unchanged (sqlite rejects the whole statement). -/
def Store.applyOp (s : Store) : Op → Store
  | .create now a =>
    match s.CreateAppointment now a with
    | .ok (s2, _) => s2
    | .error _ => s
  | .update now a =>
    match s.UpdateAppointment now a with
    | .ok (s2, _) => s2
    | .error _ => s
  | .delete id userID =>
    match s.DeleteAppointment id userID with
    | .ok s2 => s2
    | .error _ => s

/-- Run a sequence of mutations. -/
def Store.applyOps (s : Store) (ops : List Op) : Store :=
  ops.foldl Store.applyOp s

/-- The time-bound invariant enforced by `CHECK (end_time > start_time)`:
every persisted row has a start strictly before its end. -/
def Store.TimesOK (s : Store) : Prop :=
  ∀ r ∈ s.rows, r.StartTime.ns < r.EndTime.ns

/-- Well-formedness of the autoincrement counter: every persisted row's
id is below the next id to be assigned. -/
def Store.WF (s : Store) : Prop :=
  ∀ r ∈ s.rows, r.ID < s.nextId

/-- The JSON body decoded by the create and update handlers
(`createAppointmentRequest` in `internal/api`). -/
structure CreateAppointmentRequest where
  Title : String
  Description : String
  StartTime : Time
  EndTime : Time
deriving Repr, DecidableEq

/-- `Server.handleListAppointments`: the stub responds 200 with an empty
array and never consults the database. -/
def handleListAppointments (_s : Store) : Nat × List Appointment :=
  (200, [])

/-- `Server.handleGetAppointment` once the id has parsed: a database
error maps to 500, an absent row to 404, a present row to 200 with the
row as the body. -/
def handleGetAppointment (s : Store) (id : Int) : Nat × Option Appointment :=
  match s.GetAppointment id with
  | .error _ => (500, none)
  | .ok none => (404, none)
  | .ok (some a) => (200, some a)

/-- `Server.handleUpdateAppointment` once the id and body have parsed:
builds the appointment from the request with the hardcoded user id 1 and
zero-valued managed timestamps, has the gateway refresh `updated_at`
(scanned back into the struct), and echoes the struct with status 200;
a gateway error maps to 500. -/
def handleUpdateAppointment (s : Store) (now : Time) (id : Int)
    (req : CreateAppointmentRequest) : Nat × Option Appointment × Store :=
  let appt : Appointment :=
    { ID := id, UserID := 1, Title := req.Title, Description := req.Description,
      StartTime := req.StartTime, EndTime := req.EndTime,
      CreatedAt := ⟨0⟩, UpdatedAt := ⟨0⟩ }
  match s.UpdateAppointment now appt with
  | .error _ => (500, none, s)
  | .ok (s2, ts) => (200, some { appt with UpdatedAt := ts }, s2)

/-- C8: the list handler responds 200 with an empty collection for every
store state — it does not call the gateway, so its output cannot depend
on the store's contents. -/
theorem handleList_always_empty (s : Store) :
    handleListAppointments s = (200, ([] : List Appointment)) ∧
    ∀ s2 : Store, handleListAppointments s = handleListAppointments s2 :=
  ⟨rfl, fun _ => rfl⟩

/-- C5: when no stored row has the requested id, `GetAppointment`
returns `ok none` — "not found" is not an error — and the GET handler
responds 404, not 500. -/
theorem get_absent_ok_none (s : Store) (id : Int)
    (h : ∀ r ∈ s.rows, r.ID ≠ id) :
    s.GetAppointment id = Except.ok none ∧
    handleGetAppointment s id = (404, none) := by
  have hfind : s.rows.find? (fun r => r.ID == id) = none := by
    apply List.find?_eq_none.mpr
    intro r hr
    simpa using h r hr
  exact ⟨by simp [Store.GetAppointment, hfind],
    by simp [handleGetAppointment, Store.GetAppointment, hfind]⟩

/-- A one-row store for concrete checks: appointment 1 owned by user 1. -/
def storeOneRow : Store :=
  ⟨[{ ID := 1, UserID := 1, Title := "standup", Description := "daily",
      StartTime := ⟨10⟩, EndTime := ⟨20⟩, CreatedAt := ⟨7⟩, UpdatedAt := ⟨7⟩ }], 2⟩

/-- Witness for C5: fetching absent id 9 from the one-row store yields
`ok none` and a 404 response. -/
theorem get_absent_ok_none_witness :
    storeOneRow.GetAppointment 9 = Except.ok none ∧
    handleGetAppointment storeOneRow 9 = (404, none) :=
  get_absent_ok_none storeOneRow 9 (by decide)

/-- C6: a delete whose (id, user id) pair matches no stored row — absent
id or a row owned by someone else — fails with the not-found-or-
unauthorized error, and the store is unchanged: every previously stored
row is still present. -/
theorem delete_unmatched_unchanged (s : Store) (id userID : Int)
    (h : ∀ r ∈ s.rows, ¬(r.ID = id ∧ r.UserID = userID)) :
    s.DeleteAppointment id userID = Except.error DbError.notFoundOrUnauthorized ∧
    s.applyOp (Op.delete id userID) = s ∧
    ∀ r ∈ s.rows, r ∈ (s.applyOp (Op.delete id userID)).rows := by
  have hfilter : s.rows.filter (fun r => !(r.ID == id && r.UserID == userID)) = s.rows := by
    apply List.filter_eq_self.mpr
    intro r hr
    have hne := h r hr
    by_cases h1 : r.ID = id
    · by_cases h2 : r.UserID = userID
      · exact absurd ⟨h1, h2⟩ hne
      · simp [h2]
    · simp [h1]
  have hdel : s.DeleteAppointment id userID = Except.error DbError.notFoundOrUnauthorized := by
    unfold Store.DeleteAppointment
    rw [hfilter]
    simp
  refine ⟨hdel, ?_, ?_⟩
  · simp [Store.applyOp, hdel]
  · intro r hr
    simpa [Store.applyOp, hdel] using hr

/-- Witness for C6: deleting appointment 1 as user 2 (it is owned by
user 1) fails with the merged error and leaves the row in place. -/
theorem delete_unmatched_unchanged_witness :
    storeOneRow.DeleteAppointment 1 2 = Except.error DbError.notFoundOrUnauthorized ∧
    storeOneRow.applyOp (Op.delete 1 2) = storeOneRow ∧
    ∀ r ∈ storeOneRow.rows, r ∈ (storeOneRow.applyOp (Op.delete 1 2)).rows :=
  delete_unmatched_unchanged storeOneRow 1 2 (by decide)

/-- C7: an update whose (id, user id) pair matches no stored row fails
with `sql.ErrNoRows` — never success with a stale timestamp — and the
store is unchanged. -/
theorem update_unmatched_unchanged (s : Store) (now : Time) (a : Appointment)
    (h : ∀ r ∈ s.rows, ¬(r.ID = a.ID ∧ r.UserID = a.UserID)) :
    s.UpdateAppointment now a = Except.error DbError.noRows ∧
    s.applyOp (Op.update now a) = s := by
  have hany : s.rows.any (fun r => r.ID == a.ID && r.UserID == a.UserID) = false := by
    rw [List.any_eq_false]
    intro r hr
    have := h r hr
    simp only [Bool.and_eq_true, beq_iff_eq]
    tauto
  have hupd : s.UpdateAppointment now a = Except.error DbError.noRows := by
    simp [Store.UpdateAppointment, hany]
  exact ⟨hupd, by simp [Store.applyOp, hupd]⟩

/-- Witness for C7: updating appointment 1 as user 2 (owned by user 1)
fails with `noRows` and leaves the store unchanged. -/
theorem update_unmatched_unchanged_witness :
    storeOneRow.UpdateAppointment ⟨100⟩
      { ID := 1, UserID := 2, Title := "x", Description := "",
        StartTime := ⟨10⟩, EndTime := ⟨20⟩, CreatedAt := ⟨0⟩, UpdatedAt := ⟨0⟩ } =
      Except.error DbError.noRows ∧
    storeOneRow.applyOp (Op.update ⟨100⟩
      { ID := 1, UserID := 2, Title := "x", Description := "",
        StartTime := ⟨10⟩, EndTime := ⟨20⟩, CreatedAt := ⟨0⟩, UpdatedAt := ⟨0⟩ }) =
      storeOneRow :=
  update_unmatched_unchanged storeOneRow ⟨100⟩ _ (by decide)

/-- A successful create inserts only rows whose start is strictly before
their end, so the CHECK-constraint invariant survives one mutation. -/
theorem timesOK_applyOp (s : Store) (op : Op) (h : s.TimesOK) :
    (s.applyOp op).TimesOK := by
  cases op with
  | create now a =>
    simp only [Store.applyOp]
    cases hc : s.CreateAppointment now a with
    | error e => exact h
    | ok p =>
      obtain ⟨s2, b⟩ := p
      unfold Store.CreateAppointment at hc
      split at hc
      · rename_i hlt
        simp only [Except.ok.injEq, Prod.mk.injEq] at hc
        obtain ⟨hs2, -⟩ := hc
        subst hs2
        intro r hr
        simp only [List.mem_append, List.mem_singleton] at hr
        rcases hr with hr | hr
        · exact h r hr
        · subst hr; exact hlt
      · cases hc
  | update now a =>
    simp only [Store.applyOp]
    cases hc : s.UpdateAppointment now a with
    | error e => exact h
    | ok p =>
      obtain ⟨s2, ts⟩ := p
      unfold Store.UpdateAppointment at hc
      split at hc
      · split at hc
        · rename_i hlt
          simp only [Except.ok.injEq, Prod.mk.injEq] at hc
          obtain ⟨hs2, -⟩ := hc
          subst hs2
          intro r hr
          simp only [List.mem_map] at hr
          obtain ⟨r0, hr0, hmap⟩ := hr
          subst hmap
          split
          · exact hlt
          · exact h r0 hr0
        · cases hc
      · cases hc
  | delete id userID =>
    simp only [Store.applyOp]
    cases hc : s.DeleteAppointment id userID with
    | error e => exact h
    | ok s2 =>
      simp only [Store.DeleteAppointment] at hc
      split at hc
      · cases hc
      · simp only [Except.ok.injEq] at hc
        subst hc
        intro r hr
        exact h r (List.mem_of_mem_filter hr)

/-- The invariant survives any sequence of mutations. -/
theorem timesOK_applyOps (ops : List Op) (s : Store) (h : s.TimesOK) :
    (s.applyOps ops).TimesOK := by
  induction ops generalizing s with
  | nil => exact h
  | cons op ops ih => exact ih _ (timesOK_applyOp s op h)

/-- C2: an appointment whose start and end are the same instant `T` is
rejected by the store's CHECK constraint on create, and — starting from
any store satisfying the constraint invariant — after any sequence of
create, update and delete operations no persisted row has its end equal
to its start. -/
theorem equal_times_never_persisted (T now : Time) (s : Store) (a : Appointment)
    (ops : List Op) (hs : s.TimesOK)
    (h1 : a.StartTime = T) (h2 : a.EndTime = T) :
    s.CreateAppointment now a = Except.error DbError.constraintViolation ∧
    ∀ r ∈ (s.applyOps ops).rows, r.EndTime ≠ r.StartTime := by
  constructor
  · unfold Store.CreateAppointment
    rw [h1, h2]
    simp
  · intro r hr heq
    have hlt := timesOK_applyOps ops s hs r hr
    rw [heq] at hlt
    exact lt_irrefl _ hlt

/-- Witness for C2 at concrete inputs: creating an appointment with
start = end = instant 5 on the empty store is a constraint violation,
and after a create and an update no row has equal times. -/
theorem equal_times_never_persisted_witness :
    (Store.mk [] 1).CreateAppointment ⟨100⟩ apptEqualTimes =
      Except.error DbError.constraintViolation ∧
    ∀ r ∈ ((Store.mk [] 1).applyOps
      [Op.create ⟨100⟩ apptUnsetEnd, Op.update ⟨200⟩ apptEqualTimes]).rows,
      r.EndTime ≠ r.StartTime :=
  equal_times_never_persisted ⟨50⟩ ⟨100⟩ (Store.mk [] 1) apptEqualTimes
    [Op.create ⟨100⟩ apptUnsetEnd, Op.update ⟨200⟩ apptEqualTimes]
    (by intro r hr; cases hr) rfl rfl

/-- C4: when create succeeds, fetching by the id the store assigned
yields the created row: title, description, start and end are
field-for-field those of the input, and the store-managed `created_at`
and `updated_at` are populated (non-zero, being `CURRENT_TIMESTAMP`). -/
theorem create_get_roundtrip (s : Store) (now : Time) (a : Appointment)
    (s2 : Store) (b : Appointment) (hwf : s.WF) (hnz : now.IsZero = false)
    (h : s.CreateAppointment now a = Except.ok (s2, b)) :
    s2.GetAppointment b.ID = Except.ok (some b) ∧
    b.Title = a.Title ∧ b.Description = a.Description ∧
    b.StartTime = a.StartTime ∧ b.EndTime = a.EndTime ∧
    b.CreatedAt.IsZero = false ∧ b.UpdatedAt.IsZero = false := by
  unfold Store.CreateAppointment at h
  split at h
  · simp only [Except.ok.injEq, Prod.mk.injEq] at h
    obtain ⟨hs2, hb⟩ := h
    subst hs2
    subst hb
    refine ⟨?_, rfl, rfl, rfl, rfl, hnz, hnz⟩
    unfold Store.GetAppointment
    have h1 : s.rows.find? (fun r => r.ID == s.nextId) = none := by
      apply List.find?_eq_none.mpr
      intro r hr
      have := hwf r hr
      simp only [beq_iff_eq]
      omega
    congr 1
    rw [List.find?_append]
    simp only [h1, Option.none_or]
    simp [List.find?]
  · cases h

/-- The empty store, and a request-shaped appointment to create. -/
def storeEmpty : Store := ⟨[], 1⟩

def apptToCreate : Appointment :=
  { ID := 0, UserID := 1, Title := "standup", Description := "daily sync",
    StartTime := ⟨10⟩, EndTime := ⟨20⟩, CreatedAt := ⟨0⟩, UpdatedAt := ⟨0⟩ }

/-- The row the store produces for `apptToCreate` at instant 100. -/
def rowCreated : Appointment :=
  { apptToCreate with ID := 1, CreatedAt := ⟨100⟩, UpdatedAt := ⟨100⟩ }

/-- Witness for C4: creating `apptToCreate` on the empty store at
instant 100 and fetching id 1 returns exactly the created row. -/
theorem create_get_roundtrip_witness :
    (Store.mk [rowCreated] 2).GetAppointment rowCreated.ID = Except.ok (some rowCreated) ∧
    rowCreated.Title = apptToCreate.Title ∧
    rowCreated.Description = apptToCreate.Description ∧
    rowCreated.StartTime = apptToCreate.StartTime ∧
    rowCreated.EndTime = apptToCreate.EndTime ∧
    rowCreated.CreatedAt.IsZero = false ∧ rowCreated.UpdatedAt.IsZero = false :=
  create_get_roundtrip storeEmpty ⟨100⟩ apptToCreate (Store.mk [rowCreated] 2) rowCreated
    (by intro r hr; cases hr) rfl rfl

/-- C3: the list operation never errors; its result contains exactly the
stored rows owned by the user whose interval is fully contained in the
queried window (`start_time >= lo` and `end_time <= hi` — a merely
overlapping appointment is excluded), sorted ascending by start time,
and it is the empty list when nothing matches. -/
theorem listAppointments_contained (s : Store) (userID : Int) (lo hi : Time) :
    ∃ l, s.ListAppointments userID lo hi = Except.ok l ∧
      (∀ a : Appointment, a ∈ l ↔ (a ∈ s.rows ∧ a.UserID = userID ∧
        lo.ns ≤ a.StartTime.ns ∧ a.EndTime.ns ≤ hi.ns)) ∧
      List.Sorted startLE l ∧
      ((∀ a ∈ s.rows, ¬(a.UserID = userID ∧ lo.ns ≤ a.StartTime.ns ∧ a.EndTime.ns ≤ hi.ns)) →
        l = []) := by
  refine ⟨_, rfl, ?_, List.sorted_insertionSort startLE _, ?_⟩
  · intro a
    rw [List.mem_insertionSort, List.mem_filter]
    simp [and_assoc]
  · intro hnone
    have hf : s.rows.filter (fun r =>
        r.UserID == userID && decide (lo.ns ≤ r.StartTime.ns) &&
          decide (r.EndTime.ns ≤ hi.ns)) = [] := by
      rw [List.filter_eq_nil_iff]
      intro a ha
      have := hnone a ha
      simp only [Bool.and_eq_true, beq_iff_eq, decide_eq_true_eq]
      tauto
    rw [hf]
    rfl

/-- Witness for C3 at a concrete input: the one-row store queried over
the window [15, 30], which the row (spanning [10, 20]) overlaps without
being contained in. -/
theorem listAppointments_contained_witness :
    ∃ l, storeOneRow.ListAppointments 1 ⟨15⟩ ⟨30⟩ = Except.ok l ∧
      (∀ a : Appointment, a ∈ l ↔ (a ∈ storeOneRow.rows ∧ a.UserID = 1 ∧
        (15 : Int) ≤ a.StartTime.ns ∧ a.EndTime.ns ≤ (30 : Int))) ∧
      List.Sorted startLE l ∧
      ((∀ a ∈ storeOneRow.rows,
          ¬(a.UserID = 1 ∧ (15 : Int) ≤ a.StartTime.ns ∧ a.EndTime.ns ≤ (30 : Int))) →
        l = []) :=
  listAppointments_contained storeOneRow 1 ⟨15⟩ ⟨30⟩

/-- A successful update always reports the refreshed `CURRENT_TIMESTAMP`
back through the `RETURNING updated_at` scan. -/
theorem updateAppointment_ok_now (s : Store) (now : Time) (a : Appointment)
    (s2 : Store) (ts : Time) (h : s.UpdateAppointment now a = Except.ok (s2, ts)) :
    ts = now := by
  unfold Store.UpdateAppointment at h
  split at h
  · split at h
    · simp only [Except.ok.injEq, Prod.mk.injEq] at h
      exact h.2.symm
    · cases h
  · cases h

/-- C10: the appointment echoed by a 200 response of the PUT handler is
built from the request: user id is the hardcoded 1, `created_at` is the
zero timestamp (the stored creation time is not read back), the content
fields come from the request body, and only `updated_at` is read back
from the store (the refreshed `CURRENT_TIMESTAMP`). -/
theorem handleUpdate_echo (s : Store) (now : Time) (id : Int)
    (req : CreateAppointmentRequest) (b : Appointment) (s2 : Store)
    (h : handleUpdateAppointment s now id req = (200, some b, s2)) :
    b.CreatedAt = ⟨0⟩ ∧ b.UserID = 1 ∧ b.UpdatedAt = now ∧
    b.Title = req.Title ∧ b.Description = req.Description ∧
    b.StartTime = req.StartTime ∧ b.EndTime = req.EndTime := by
  simp only [handleUpdateAppointment] at h
  split at h
  · simp at h
  · rename_i s3 ts heq
    simp only [Prod.mk.injEq, Option.some.injEq] at h
    obtain ⟨-, hb, -⟩ := h
    subst hb
    have hts := updateAppointment_ok_now s now _ s3 ts heq
    subst hts
    exact ⟨rfl, rfl, rfl, rfl, rfl, rfl, rfl⟩

/-- Witness for C10: updating appointment 1 (stored with `created_at` 7)
as user 1 succeeds, and the echoed body has `created_at` zero, user id
1, and the refreshed `updated_at` 100 — not the stored row's values. -/
theorem handleUpdate_echo_witness :
    ({ CreatedAt := ⟨0⟩, UserID := 1, UpdatedAt := ⟨100⟩, ID := 1,
       Title := "retro", Description := "monthly",
       StartTime := ⟨40⟩, EndTime := ⟨60⟩ } : Appointment).CreatedAt = ⟨0⟩ ∧
    ({ CreatedAt := ⟨0⟩, UserID := 1, UpdatedAt := ⟨100⟩, ID := 1,
       Title := "retro", Description := "monthly",
       StartTime := ⟨40⟩, EndTime := ⟨60⟩ } : Appointment).UserID = 1 ∧
    ({ CreatedAt := ⟨0⟩, UserID := 1, UpdatedAt := ⟨100⟩, ID := 1,
       Title := "retro", Description := "monthly",
       StartTime := ⟨40⟩, EndTime := ⟨60⟩ } : Appointment).UpdatedAt = ⟨100⟩ ∧
    ({ CreatedAt := ⟨0⟩, UserID := 1, UpdatedAt := ⟨100⟩, ID := 1,
       Title := "retro", Description := "monthly",
       StartTime := ⟨40⟩, EndTime := ⟨60⟩ } : Appointment).Title = "retro" ∧
    ({ CreatedAt := ⟨0⟩, UserID := 1, UpdatedAt := ⟨100⟩, ID := 1,
       Title := "retro", Description := "monthly",
       StartTime := ⟨40⟩, EndTime := ⟨60⟩ } : Appointment).Description = "monthly" ∧
    ({ CreatedAt := ⟨0⟩, UserID := 1, UpdatedAt := ⟨100⟩, ID := 1,
       Title := "retro", Description := "monthly",
       StartTime := ⟨40⟩, EndTime := ⟨60⟩ } : Appointment).StartTime = ⟨40⟩ ∧
    ({ CreatedAt := ⟨0⟩, UserID := 1, UpdatedAt := ⟨100⟩, ID := 1,
       Title := "retro", Description := "monthly",
       StartTime := ⟨40⟩, EndTime := ⟨60⟩ } : Appointment).EndTime = ⟨60⟩ :=
  handleUpdate_echo storeOneRow ⟨100⟩ 1
    { Title := "retro", Description := "monthly", StartTime := ⟨40⟩, EndTime := ⟨60⟩ }
    _ _ rfl
